import Mathlib

/-!
Shallow embedding of the cty-rs library (src/lib.rs): a parser for the
cty.dat callsign-prefix database and a longest-prefix lookup engine.

Strings are modelled as lists of UTF-8 bytes (`Str := List Nat`), matching
Rust `&str`, whose `len`, slicing and `find` positions are byte indices.
Rust string slicing `&s[..i]` panics when `i` is not a UTF-8 character
boundary; that panic is modelled explicitly.  Machine integers `u32`/`i32`
are modelled as `Nat`/`Int` with explicit range checks at the points where
the source parses or can overflow them; `f32` latitude/longitude values are
modelled as exact rationals (the development only ever evaluates them on
short decimal literals that `f32` represents exactly).  `chrono`'s
`FixedOffset` is modelled as its count of seconds east of UTC, with
`FixedOffset::east_opt` accepting exactly the range -86400 < secs < 86400.
-/

/-- A Rust `&str` / `String`, as its list of UTF-8 bytes. -/
abbrev Str := List Nat

/-- Rust `str::is_char_boundary i`: true at 0, at the length, and at any
byte that is not a UTF-8 continuation byte (`b & 0xC0 != 0x80`). -/
def isCharBoundary (s : Str) (i : Nat) : Bool :=
  i == 0 || i == s.length ||
    !(Nat.ble 128 (s.getD i 0) && Nat.blt (s.getD i 0) 192)

/-- Rust `&s[..i]`: `some` prefix when `i` is a char boundary, `none`
standing for the slice panic. -/
def sliceTo (s : Str) (i : Nat) : Option Str :=
  if isCharBoundary s i then some (s.take i) else none

/-- The `Entity` struct of src/lib.rs.  `timezone` is the `FixedOffset` as
seconds east of UTC; `lat`/`lon` are the `f32` fields as exact rationals;
`prefixStr` is the source's `prefix` field (a Lean keyword). -/
structure Entity where
  name : Str
  cq : Nat
  itu : Nat
  continent : Str
  lat : ℚ
  lon : ℚ
  timezone : Int
  prefixStr : Str
  waedc : Bool
  is_exact : Bool
deriving DecidableEq

/-- `Entity::default()` from src/lib.rs. -/
def defaultEntity : Entity :=
  { name := [], cq := 0, itu := 0, continent := [], lat := 0, lon := 0,
    timezone := 0, prefixStr := [], waedc := false, is_exact := false }

/-- The entity table `Cty.entities : HashMap<String, Entity>`, modelled
extensionally as a partial map from key strings to entities. -/
def Table := Str → Option Entity

/-- `HashMap::insert`: the new binding shadows any previous one. -/
def insertTable (t : Table) (k : Str) (v : Entity) : Table :=
  fun k' => if k' = k then some v else t k'

/-- `Cty::default().entities`: the empty map. -/
def emptyTable : Table := fun _ => none

/-- Result of running `Cty::lookup`: either a normal `Option<&Entity>`
result, or a panic (a string-slice panic at a non-boundary byte index). -/
inductive LookupOutcome where
  | panic
  | result (r : Option Entity)
deriving DecidableEq

/-- The `(1..=callsign.len()).rev().find_map(|i| self.entities.get(&callsign[..i]))`
iterator of `Cty::lookup`, trying byte lengths `n, n-1, ..., 1`. -/
def findPrefixFrom (t : Table) (s : Str) : Nat → LookupOutcome
  | 0 => .result none
  | i + 1 =>
    match sliceTo s (i + 1) with
    | none => .panic
    | some p =>
      match t p with
      | some e => .result (some e)
      | none => findPrefixFrom t s i

/-- `Cty::lookup` (src/lib.rs lines 142-149).  Rust's `Option::or` takes its
argument eagerly, so the prefix scan is evaluated first; its panic, if any,
surfaces regardless of the exact-match test. -/
def lookupModel (t : Table) (s : Str) : LookupOutcome :=
  match findPrefixFrom t s s.length with
  | .panic => .panic
  | .result pre =>
    match t s with
    | some e => if e.is_exact then .result (some e) else .result pre
    | none => .result pre

/-! ## String helpers used by `Cty::load`

All the delimiters the source splits or tests on (`:` 58, `,` 44, `;` 59,
`=` 61, `*` 42, `(` 40, `[` 91, `#` 35, `~` 126, `{` 123, `}` 125, `<` 60,
`>` 62, `/` 47, `.` 46, `+` 43, `-` 45 and the ASCII digits 48-57) are
single-byte ASCII characters, so the byte-level scans below coincide with
Rust's char-level ones on any valid UTF-8 input. -/

/-- ASCII whitespace bytes; `str::trim` on the ASCII inputs of this format. -/
def isWs (b : Nat) : Bool :=
  b == 9 || b == 10 || b == 11 || b == 12 || b == 13 || b == 32

/-- Drop every trailing byte equal to `b`: Rust `trim_end_matches(c)`. -/
def trimEndMatches (b : Nat) (s : Str) : Str :=
  (s.reverse.dropWhile (fun c => c == b)).reverse

/-- Rust `str::trim` (ASCII whitespace). -/
def trimWs (s : Str) : Str :=
  ((s.dropWhile isWs).reverse.dropWhile isWs).reverse

/-- Rust `str::split(d)`: splits at every occurrence of the delimiter byte;
the empty string yields `[""]`. -/
def splitByte (d : Nat) : Str → List Str
  | [] => [[]]
  | b :: rest =>
    if b == d then [] :: splitByte d rest
    else
      match splitByte d rest with
      | [] => [[b]]
      | r :: rs => (b :: r) :: rs

/-- Rust `str::starts_with(c)` for a single-byte character. -/
def startsWithByte (b : Nat) : Str → Bool
  | [] => false
  | c :: _ => c == b

/-! ## Numeric parsing (`str::parse::<u32>/<i32>/<f32>`) -/

def isDigit (b : Nat) : Bool := Nat.ble 48 b && Nat.ble b 57

/-- Value of a nonempty ASCII digit string. -/
def digitsVal : Str → Option Nat → Option Nat
  | [], acc => acc
  | b :: r, acc =>
    if isDigit b then digitsVal r (some ((acc.getD 0) * 10 + (b - 48)))
    else none

/-- Nonempty all-digit string to its value. -/
def parseNat (s : Str) : Option Nat := digitsVal s none

/-- Rust `str::parse::<u32>`: optional leading `+`, then digits; overflow
past `u32::MAX` is a `ParseIntError` (an `Err`, not a panic). -/
def parseU32 (s : Str) : Option Nat :=
  let s' := match s with | 43 :: r => r | _ => s
  match parseNat s' with
  | some n => if n < 4294967296 then some n else none
  | none => none

/-- Rust `str::parse::<i32>`: optional sign, digits, `i32` range check. -/
def parseI32 (s : Str) : Option Int :=
  match s with
  | 45 :: r =>
    match parseNat r with
    | some n => if n ≤ 2147483648 then some (-(n : Int)) else none
    | none => none
  | 43 :: r =>
    match parseNat r with
    | some n => if n ≤ 2147483647 then some ((n : Int)) else none
    | none => none
  | _ =>
    match parseNat s with
    | some n => if n ≤ 2147483647 then some ((n : Int)) else none
    | none => none

/-- Rust `str::parse::<f32>` restricted to the plain decimal forms
`[sign] digits [. digits]` that this format uses, as an exact rational. -/
def parseDec (s : Str) : Option ℚ :=
  match splitByte 46 s with
  | [ip] => (parseNat ip).map (fun i => mkRat (Int.ofNat i) 1)
  | [ip, fp] =>
    match parseNat ip, parseNat fp with
    | some i, some f =>
      some (mkRat (Int.ofNat (i * 10 ^ fp.length + f)) (10 ^ fp.length))
    | some i, none => if fp = [] then some (mkRat (Int.ofNat i) 1) else none
    | none, some f =>
      if ip = [] then some (mkRat (Int.ofNat f) (10 ^ fp.length)) else none
    | none, none => none
  | _ => none

def parseF32 (s : Str) : Option ℚ :=
  match s with
  | 45 :: r => (parseDec r).map (fun q => -q)
  | 43 :: r => parseDec r
  | _ => parseDec s

/-! ## Regex captures

`Cty::load` uses five `regex` patterns with leftmost-first (Perl-style)
semantics, applied to substrings of a single input line (which therefore
contain no newline byte).  Each is embedded as a hand-written scanner:
`scanFirstG m` tries the anchored matcher `m` at every suffix from the
left, exactly the leftmost-first search for these patterns, whose anchored
matches are as computed below (greedy `.*` reaching to the last possible
closing delimiter, greedy `\d+` being a maximal digit run).

One deliberate narrowing: the regex crate's `\d` defaults to the full
Unicode decimal-digit class `\p{Nd}`, of which the scanners below
implement the restriction to the ASCII digits 48-57.  On an ASCII token
the two classes coincide, so every theorem whose hypotheses assert the
*absence* of a `\d`-based capture in an arbitrary token carries an
`allAscii` hypothesis; on a non-ASCII token the program's regex can match
a non-ASCII digit (which `parse::<u32>` then rejects with a
`ParseIntError`) where the ASCII scanner reports no match. -/

def scanFirstG {α : Type} (m : Str → Option α) : Str → Option α
  | [] => m []
  | b :: rest =>
    match m (b :: rest) with
    | some c => some c
    | none => scanFirstG m rest

/-- Anchored `\((\d+)\)`: `(`, a maximal nonempty digit run, `)`.  `\d`
is modelled as ASCII digits, the restriction of the crate's Unicode
`\p{Nd}` under which both coincide on ASCII input (see the section
comment above). -/
def parenMatchAt : Str → Option Str
  | 40 :: rest =>
    let ds := rest.takeWhile isDigit
    if ds.isEmpty then none
    else if (rest.drop ds.length).head? = some 41 then some ds else none
  | _ => none

/-- Anchored `\[(\d+)\]`, with `\d` modelled as ASCII digits exactly as in
`parenMatchAt`. -/
def bracketMatchAt : Str → Option Str
  | 91 :: rest =>
    let ds := rest.takeWhile isDigit
    if ds.isEmpty then none
    else if (rest.drop ds.length).head? = some 93 then some ds else none
  | _ => none

/-- Byte index of the last occurrence of `d` in `s`. -/
def lastIdx (d : Nat) (s : Str) : Option Nat :=
  match s.reverse.findIdx? (fun c => c == d) with
  | some r => some (s.length - 1 - r)
  | none => none

/-- Anchored `\{(.*)\}`: `{`, then greedy `.*` up to the last `}`. -/
def braceMatchAt : Str → Option Str
  | 123 :: rest => (lastIdx 125 rest).map (fun j => rest.take j)
  | _ => none

/-- Anchored `~(.*)~`: `~`, then greedy `.*` up to the last `~`. -/
def tildeMatchAt : Str → Option Str
  | 126 :: rest => (lastIdx 126 rest).map (fun j => rest.take j)
  | _ => none

/-- Anchored `<(.*)/(.*)>`: `<`, greedy first group up to the last `/` that
still leaves a `>` behind it, greedy second group up to the last `>`. -/
def angleMatchAt : Str → Option (Str × Str)
  | 60 :: rest =>
    match lastIdx 62 rest with
    | none => none
    | some q =>
      match lastIdx 47 (rest.take q) with
      | none => none
      | some p => some (rest.take p, (rest.drop (p + 1)).take (q - p - 1))
  | _ => none

/-- `cq_regex.captures(s)` capture group 1. -/
def cqCapture : Str → Option Str := scanFirstG parenMatchAt

/-- `itu_regex.captures(s)` capture group 1. -/
def ituCapture : Str → Option Str := scanFirstG bracketMatchAt

/-- `continent_regex.captures(s)` capture group 1. -/
def braceCapture : Str → Option Str := scanFirstG braceMatchAt

/-- `timezone_regex.captures(s)` capture group 1. -/
def tildeCapture : Str → Option Str := scanFirstG tildeMatchAt

/-- `latlon_regex.captures(s)` capture groups 1 and 2. -/
def latlonCapture : Str → Option (Str × Str) := scanFirstG angleMatchAt

/-! ## Load: errors, alias tokens, primary records -/

/-- The typed errors `Cty::load` can return (beyond I/O): the two
`std::num` parse errors propagated by `?` and the `"Invalid timezone"`
string error from `FixedOffset::east_opt(..).ok_or(..)`. -/
inductive LoadError where
  | parseIntErr
  | parseFloatErr
  | invalidTimezone
deriving DecidableEq

/-- Result of a fallible load step: a panic (index out of bounds or
arithmetic overflow), a typed error, or a value. -/
inductive Outcome (α : Type) where
  | panic
  | err (e : LoadError)
  | ok (a : α)
deriving DecidableEq

def Outcome.bind {α β : Type} : Outcome α → (α → Outcome β) → Outcome β
  | .panic, _ => .panic
  | .err e, _ => .err e
  | .ok a, f => f a

def Outcome.map {α β : Type} (f : α → β) : Outcome α → Outcome β
  | .panic => .panic
  | .err e => .err e
  | .ok a => .ok (f a)

/-- `Vec` indexing `parts[i]`: out of bounds is a panic. -/
def idxOf (l : List Str) (i : Nat) : Outcome Str :=
  match l.get? i with
  | some s => .ok s
  | none => .panic

/-- Lift a `parse::<u32>/<i32>` result: failure is a `ParseIntError`. -/
def ofIntParse {α : Type} (o : Option α) : Outcome α :=
  match o with
  | some a => .ok a
  | none => .err .parseIntErr

/-- Lift a `parse::<f32>` result: failure is a `ParseFloatError`. -/
def ofFloatParse (o : Option ℚ) : Outcome ℚ :=
  match o with
  | some a => .ok a
  | none => .err .parseFloatErr

/-- Checked `i32` multiplication: overflow panics (debug-profile Rust
semantics, the profile the crate's own test suite runs under). -/
def i32Mul (a b : Int) : Option Int :=
  if -2147483648 ≤ a * b ∧ a * b ≤ 2147483647 then some (a * b) else none

/-- `FixedOffset::east_opt`: accepts exactly -86400 < secs < 86400. -/
def eastOpt (secs : Int) : Option Int :=
  if -86400 < secs ∧ secs < 86400 then some secs else none

/-- True for the bytes `Cty::load` splits an alias token on:
`alias.find(|c| c == '(' || c == '[' || c == '#' || c == '~')`. -/
def isOpener (b : Nat) : Bool :=
  b == 40 || b == 91 || b == 35 || b == 126

/-- The key/overrides split of an alias token (after the leading `=` has
been stripped): `pos` is `find(..).unwrap_or(alias.len())`, the key is
`&alias[..pos]`, the overrides substring is `&alias[pos..]`.  The found
character is ASCII, so `pos` is always a char boundary and the slices
cannot panic. -/
def splitKey (al : Str) : Str × Str :=
  let pos := al.findIdx isOpener
  (al.take pos, al.drop pos)

/-- The CQ-zone override step of `Cty::load` (lines 107-110). -/
def applyCq (ovr : Str) (e : Entity) : Outcome Entity :=
  match cqCapture ovr with
  | none => .ok e
  | some c => (ofIntParse (parseU32 c)).map (fun n => { e with cq := n })

/-- The ITU-zone override step (lines 112-115). -/
def applyItu (ovr : Str) (e : Entity) : Outcome Entity :=
  match ituCapture ovr with
  | none => .ok e
  | some c => (ofIntParse (parseU32 c)).map (fun n => { e with itu := n })

/-- The latitude/longitude override step (lines 117-122). -/
def applyLatlon (ovr : Str) (e : Entity) : Outcome Entity :=
  match latlonCapture ovr with
  | none => .ok e
  | some (c1, c2) =>
    (ofFloatParse (parseF32 c1)).bind (fun la =>
      (ofFloatParse (parseF32 c2)).map (fun lo =>
        { e with lat := la, lon := lo }))

/-- The continent override step (lines 124-127). -/
def applyContinent (ovr : Str) (e : Entity) : Outcome Entity :=
  match braceCapture ovr with
  | none => .ok e
  | some c => .ok { e with continent := c }

/-- The timezone override step (lines 129-135): parse as `i32`, multiply
by 3600 (panics on `i32` overflow), then `east_opt(..).ok_or("Invalid
timezone")?`. -/
def applyTimezone (ovr : Str) (e : Entity) : Outcome Entity :=
  match tildeCapture ovr with
  | none => .ok e
  | some c =>
    (ofIntParse (parseI32 c)).bind (fun n =>
      match i32Mul n 3600 with
      | none => .panic
      | some secs =>
        match eastOpt secs with
        | none => .err .invalidTimezone
        | some secs' => .ok { e with timezone := secs' })

/-- Processing of one alias token (lines 95-137): determine `is_exact`
from a leading `=`, strip all leading `=`, split key from overrides, clone
the base entity and apply the five override steps in source order;
returns the key and the entity to insert under it. -/
def applyAlias (base : Entity) (al : Str) : Outcome (Str × Entity) :=
  let ex := startsWithByte 61 al
  let al' := al.dropWhile (fun b => b == 61)
  let key := (splitKey al').1
  let ovr := (splitKey al').2
  (applyCq ovr { base with is_exact := ex }).bind (fun e1 =>
    (applyItu ovr e1).bind (fun e2 =>
      (applyLatlon ovr e2).bind (fun e3 =>
        (applyContinent ovr e3).bind (fun e4 =>
          (applyTimezone ovr e4).map (fun e5 => (key, e5))))))

/-- The token list of an alias line (lines 88-93):
`line.trim_end_matches(';').split(',').filter(|s| !s.is_empty()).map(str::trim)`.
Note the filter runs before the trim. -/
def aliasTokens (line : Str) : List Str :=
  ((splitByte 44 (trimEndMatches 59 line)).filter
    (fun s => !s.isEmpty)).map trimWs

/-- Insert each alias token's entity in order; the first panic or typed
error aborts. -/
def processTokens (base : Entity) : Table → List Str → Outcome Table
  | t, [] => .ok t
  | t, al :: rest =>
    (applyAlias base al).bind (fun ke =>
      processTokens base (insertTable t ke.1 ke.2) rest)

/-- Processing of one primary record line (lines 72-86), with the fields
of the struct literal evaluated in source order: `parts[0]`, then
`parts[1].parse::<u32>()?`, `parts[2].parse::<u32>()?`, `parts[3]`,
`parts[4].parse::<f32>()?`, `parts[5].parse::<f32>()?`,
`FixedOffset::east_opt(0)` (always `Some(0)`), and `parts[7]` for both the
`*`-stripped prefix and the `waedc` flag.  Indexing a missing field
panics.  Returns the updated table and the new `last_entity`. -/
def processPrimary (t : Table) (parts : List Str) : Outcome (Table × Entity) :=
  (idxOf parts 0).bind (fun f0 =>
    (idxOf parts 1).bind (fun f1 =>
      (ofIntParse (parseU32 f1)).bind (fun cq =>
        (idxOf parts 2).bind (fun f2 =>
          (ofIntParse (parseU32 f2)).bind (fun itu =>
            (idxOf parts 3).bind (fun f3 =>
              (idxOf parts 4).bind (fun f4 =>
                (ofFloatParse (parseF32 f4)).bind (fun la =>
                  (idxOf parts 5).bind (fun f5 =>
                    (ofFloatParse (parseF32 f5)).bind (fun lo =>
                      (idxOf parts 7).bind (fun f7 =>
                        let ent : Entity :=
                          { name := f0, cq := cq, itu := itu,
                            continent := f3, lat := la, lon := lo,
                            timezone := 0,
                            prefixStr := f7.dropWhile (fun b => b == 42),
                            waedc := startsWithByte 42 f7,
                            is_exact := false }
                        .ok (insertTable t ent.prefixStr ent, ent))))))))))))

/-- Processing of one input line (lines 68-138): split on `:` and trim
each field; more than 2 fields is a primary record, otherwise an alias
line over the current `last_entity`.  State is `(entities, last_entity)`. -/
def processLine (st : Table × Entity) (line : Str) : Outcome (Table × Entity) :=
  let parts := (splitByte 58 line).map trimWs
  if 2 < parts.length then processPrimary st.1 parts
  else (processTokens st.2 st.1 (aliasTokens line)).map (fun t => (t, st.2))

def loadLines : (Table × Entity) → List Str → Outcome (Table × Entity)
  | st, [] => .ok st
  | st, l :: rest => (processLine st l).bind (fun st' => loadLines st' rest)

/-- `Cty::load`, over the list of lines read from the file (I/O errors are
outside the model): fold `processLine` starting from the empty table and
`Entity::default()`, returning the final table. -/
def loadModel (lines : List Str) : Outcome Table :=
  (loadLines (emptyTable, defaultEntity) lines).map (fun st => st.1)

/-- Extract one key's entry from a successful load (for concrete tests). -/
def tableOf (o : Outcome Table) (k : Str) : Option Entity :=
  match o with
  | .ok t => t k
  | _ => none

/-! ## Concrete values for tests and witnesses

Byte spellings: `"BS7H"` = [66,83,55,72], `"DL"` = [68,76], `"DL1ABC"` =
[68,76,49,65,66,67], `"xÄ"` = [120,195,132], `"Ä"` = [195,132],
`"XY9(5)[10]{AS}<1.0/2.0>~8~"` below, `"XY{AS}"` = [88,89,123,65,83,125],
`"XY<1.0/2.0>"` = [88,89,60,49,46,48,47,50,46,48,62]. -/

/-- True iff every byte of `s` is ASCII (so every index is a char boundary). -/
def allAscii (s : Str) : Bool := s.all (fun b => Nat.blt b 128)

/-- An exact-match entry, distinguishable from the others. -/
def eExactW : Entity := { defaultEntity with is_exact := true, cq := 1 }

/-- A plain prefix entry. -/
def ePreW : Entity := { defaultEntity with cq := 2 }

/-- A second plain prefix entry. -/
def ePreW2 : Entity := { defaultEntity with cq := 3 }

/-- Table with exact key `"BS7H"` and non-exact prefix key `"BS7"`. -/
def tExactW : Table :=
  insertTable (insertTable emptyTable [66, 83, 55] ePreW) [66, 83, 55, 72] eExactW

/-- Table with non-exact keys `"DL"` and `"DL1"`. -/
def tDLW : Table :=
  insertTable (insertTable emptyTable [68, 76] ePreW) [68, 76, 49] ePreW2

/-- Table with the single key `"x"`. -/
def tXW : Table := insertTable emptyTable [120] ePreW

/-- The alias token `"XY9(5)[10]{AS}<1.0/2.0>~8~"` of C3. -/
def tokC3 : Str :=
  [88, 89, 57, 40, 53, 41, 91, 49, 48, 93, 123, 65, 83, 125,
   60, 49, 46, 48, 47, 50, 46, 48, 62, 126, 56, 126]

/-- A base entity with distinctive values in every overridable field. -/
def eBaseW : Entity :=
  { name := [78], cq := 7, itu := 9, continent := [69, 85], lat := 5, lon := 6,
    timezone := 3600, prefixStr := [78], waedc := true, is_exact := true }

/-- The primary record line `"G:14:28:EU:3:7:x:*DL"`. -/
def lineG : Str :=
  [71, 58, 49, 52, 58, 50, 56, 58, 69, 85, 58, 51, 58, 55, 58, 120, 58, 42, 68, 76]

/-- The entity that `lineG` parses to. -/
def eG : Entity :=
  { name := [71], cq := 14, itu := 28, continent := [69, 85], lat := 3, lon := 7,
    timezone := 0, prefixStr := [68, 76], waedc := true, is_exact := false }

/-! ## Basic lemmas -/

@[simp] theorem Outcome.bind_ok {α β : Type} (a : α) (f : α → Outcome β) :
    (Outcome.ok a).bind f = f a := rfl

@[simp] theorem Outcome.bind_err {α β : Type} (e : LoadError) (f : α → Outcome β) :
    (Outcome.err e).bind f = .err e := rfl

@[simp] theorem Outcome.bind_panic {α β : Type} (f : α → Outcome β) :
    (Outcome.panic : Outcome α).bind f = .panic := rfl

theorem ascii_boundary (s : Str) (h : allAscii s = true) (i : Nat) :
    isCharBoundary s i = true := by
  have hb : s[i]?.getD 0 < 128 := by
    rcases Nat.lt_or_ge i s.length with h1 | h1
    · have hmem : s[i] ∈ s := List.getElem_mem h1
      have := (List.all_eq_true.mp h) _ hmem
      have hlt : s[i] < 128 := by simpa [Nat.blt_eq] using this
      simpa [List.getElem?_eq_getElem h1] using hlt
    · simp [List.getElem?_eq_none h1]
  have hble : Nat.ble 128 (s[i]?.getD 0) = false := by
    cases hble : Nat.ble 128 (s[i]?.getD 0) with
    | false => rfl
    | true => exact absurd (Nat.le_of_ble_eq_true hble) (by omega)
  simp [isCharBoundary, hble]

theorem findPrefixFrom_no_panic (t : Table) (s : Str) (n : Nat)
    (hb : ∀ i, isCharBoundary s i = true) :
    findPrefixFrom t s n ≠ .panic := by
  induction n with
  | zero => simp [findPrefixFrom]
  | succ m ih =>
    simp only [findPrefixFrom, sliceTo, hb (m + 1), if_true]
    cases t (s.take (m + 1)) <;> simp [ih]

theorem findPrefixFrom_hits (t : Table) (s : Str) (e : Entity) (i n : Nat)
    (hb : ∀ j, isCharBoundary s j = true)
    (h1 : 1 ≤ i) (hin : i ≤ n)
    (hget : t (s.take i) = some e)
    (hnone : ∀ j, j ≤ n → i < j → t (s.take j) = none) :
    findPrefixFrom t s n = .result (some e) := by
  induction n with
  | zero => omega
  | succ m ih =>
    simp only [findPrefixFrom, sliceTo, hb (m + 1), if_true]
    rcases Nat.lt_or_ge i (m + 1) with hlt | hge
    · rw [hnone (m + 1) (Nat.le_refl _) hlt]
      exact ih (by omega) (fun j hj1 hj2 => hnone j (by omega) hj2)
    · have hi : i = m + 1 := by omega
      subst hi
      rw [hget]

/-! ## Sanity checks of the embedding on concrete inputs -/

example : splitByte 58 [65, 58, 49, 58] = [[65], [49], []] := by decide
example : trimWs [32, 65, 9] = [65] := by decide
example : parseU32 [49, 48] = some 10 := by decide
example : parseI32 [45, 56] = some (-8) := by decide
example : parseF32 [49, 46, 48] = some 1 := by decide
example : cqCapture [40, 41, 40, 53, 41] = some [53] := by decide
example :
    latlonCapture [60, 49, 46, 48, 47, 50, 46, 48, 62]
      = some ([49, 46, 48], [50, 46, 48]) := by decide
example : tableOf (loadModel [lineG]) [68, 76] = some eG := by decide

/-! ## Claim C1: exact-match precedence in lookup -/

/-- Claim C1: for every table and callsign string, if the full callsign is
a key whose `isExactMatch` flag is true, `lookup` returns that entry,
regardless of any shorter-prefix keys (the table is universally
quantified, so it may contain arbitrary prefix entries). -/
theorem lookup_exact_match_wins (t : Table) (s : Str) (e : Entity)
    (hget : t s = some e) (hex : e.is_exact = true) :
    lookupModel t s = .result (some e) := by
  cases s with
  | nil => simp [lookupModel, findPrefixFrom, hget, hex]
  | cons b r =>
    have hslice : sliceTo (b :: r) (r.length + 1) = some (b :: r) := by
      have hbd : isCharBoundary (b :: r) (r.length + 1) = true := by
        simp [isCharBoundary]
      have htake : (b :: r).take (r.length + 1) = b :: r := by
        simp
      simp [sliceTo, hbd, htake]
    simp [lookupModel, findPrefixFrom, hslice, hget, hex]

/-- Witness for C1: lookup of `"BS7H"` in a table where `"BS7H"` is an exact
key and `"BS7"` is also a (non-exact) key returns the exact entry. -/
theorem lookup_exact_match_wins_wit :
    tExactW [66, 83, 55, 72] = some eExactW ∧ eExactW.is_exact = true ∧
      lookupModel tExactW [66, 83, 55, 72] = .result (some eExactW) :=
  ⟨by decide, by decide,
    lookup_exact_match_wins tExactW [66, 83, 55, 72] eExactW (by decide) (by decide)⟩

/-! ## Claim C10: lookup of the empty callsign -/

/-- Claim C10: on the empty callsign string the prefix scan examines no
candidates (the range `1..=0` is empty): lookup returns an entity exactly
when the empty string itself is a key flagged exact, and no-match
otherwise — even when a non-exact empty-string key is present. -/
theorem lookup_empty_callsign (t : Table) :
    lookupModel t []
      = (match t [] with
         | some e => if e.is_exact then LookupOutcome.result (some e)
                     else .result none
         | none => .result none) := rfl

/-! ## Claim C2: longest-prefix matching -/

/-- Counterexample to C2 as stated: the table has the single key `"x"` and
the callsign is `"xÄ"` (bytes [120,195,132], a valid UTF-8 string whose
full string is not a key, with prefix `"x"` present).  The claim says
lookup returns the entity under `"x"`; the code instead panics, because the
prefix scan slices at byte index 2, which is inside the two-byte character
`Ä` and thus not a char boundary. -/
theorem lookup_longest_cex :
    tXW [120, 195, 132] = none ∧ tXW [120] = some ePreW ∧
      lookupModel tXW [120, 195, 132] = .panic := by decide

/-- Claim C2, amended: restricted to ASCII callsigns (equivalently, ones
whose every byte index is a char boundary — non-ASCII callsigns can make
the prefix scan panic, see `lookup_longest_cex`).  If the full callsign is
not a key flagged exact, lookup returns the entity stored under the
longest prefix (byte lengths from the full length down to 1) present as a
key, regardless of that entry's `isExactMatch` flag. -/
theorem lookup_longest_ascii (t : Table) (s : Str) (e : Entity) (i : Nat)
    (ha : allAscii s = true)
    (hne : ((t s).all (fun e' => !e'.is_exact)) = true)
    (h1 : 1 ≤ i) (hin : i ≤ s.length)
    (hget : t (s.take i) = some e)
    (hnone : ∀ j, j ≤ s.length → i < j → t (s.take j) = none) :
    lookupModel t s = .result (some e) := by
  have hb := fun j => ascii_boundary s ha j
  have hfind := findPrefixFrom_hits t s e i s.length hb h1 hin hget hnone
  unfold lookupModel
  rw [hfind]
  cases hts : t s with
  | none => rfl
  | some e' =>
    have he' : e'.is_exact = false := by
      rw [hts] at hne
      simpa using hne
    simp [he']

/-- Witness for the amended C2, with the claim's own example: both `"DL"`
and `"DL1"` are keys (neither exact), and `lookup("DL1ABC")` returns the
entity under `"DL1"`, not `"DL"`. -/
theorem lookup_longest_ascii_wit :
    allAscii [68, 76, 49, 65, 66, 67] = true ∧
      tDLW [68, 76, 49] = some ePreW2 ∧ tDLW [68, 76] = some ePreW ∧
      lookupModel tDLW [68, 76, 49, 65, 66, 67] = .result (some ePreW2) :=
  ⟨by decide, by decide, by decide,
    lookup_longest_ascii tDLW [68, 76, 49, 65, 66, 67] ePreW2 3
      (by decide) (by decide) (by decide) (by decide) (by decide) (by decide)⟩

/-! ## Claim C6: lookup is total and error-free -/

/-- Counterexample to C6 as stated: on the valid UTF-8 callsign `"Ä"`
(bytes [195,132]) over the empty table, lookup does not return an entity
or a no-match result — it panics at the byte-index-1 slice, which falls
inside the two-byte character. -/
theorem lookup_total_cex : lookupModel emptyTable [195, 132] = .panic := by decide

/-- Claim C6, amended: for every table and every ASCII callsign, lookup
terminates normally with either an entity or a no-match result, and never
errs.  (The model is a pure function of the table, so read-onlyness holds
by construction; for non-ASCII callsigns the code can panic, see
`lookup_total_cex`.) -/
theorem lookup_ascii_total (t : Table) (s : Str) (h : allAscii s = true) :
    ∃ r : Option Entity, lookupModel t s = .result r := by
  have hb := fun j => ascii_boundary s h j
  have hnp := findPrefixFrom_no_panic t s s.length hb
  unfold lookupModel
  cases hf : findPrefixFrom t s s.length with
  | panic => exact absurd hf hnp
  | result pre =>
    cases t s with
    | none => exact ⟨pre, rfl⟩
    | some e =>
      cases he : e.is_exact
      · exact ⟨pre, by simp [he]⟩
      · exact ⟨some e, by simp [he]⟩

/-- Witness for the amended C6 at a concrete ASCII callsign and table. -/
theorem lookup_ascii_total_wit :
    allAscii [48, 49, 50] = true ∧
      ∃ r : Option Entity, lookupModel tExactW [48, 49, 50] = .result r :=
  ⟨by decide, lookup_ascii_total tExactW [48, 49, 50] (by decide)⟩

/-! ## Claim C4: the key/overrides split of an alias token -/

/-- Counterexample to C4 as stated: the split characters are `(`, `[`, `#`,
`~` only — `{` and `<` do not end the key.  For the claim's own example
tokens `"XY{AS}"` and `"XY<1.0/2.0>"` the whole token becomes the key (and
the overrides substring is empty), not `"XY"`. -/
theorem splitKey_cex :
    splitKey [88, 89, 123, 65, 83, 125] = ([88, 89, 123, 65, 83, 125], []) ∧
      splitKey [88, 89, 60, 49, 46, 48, 47, 50, 46, 48, 62]
        = ([88, 89, 60, 49, 46, 48, 47, 50, 46, 48, 62], []) ∧
      (splitKey [88, 89, 123, 65, 83, 125]).1 ≠ [88, 89] := by decide

/-- Claim C4, amended: after stripping leading `=`, the lookup key is
everything before the first occurrence of any of `(`, `[`, `#`, `~` (not
`{` or `<`), and the overrides substring is everything from that position
onward; if none of those four characters occurs, the whole remainder is
the key and the overrides substring is empty.  Characterisation: the two
parts concatenate back to the token, the key contains no split character,
and the overrides part is empty or starts with a split character. -/
theorem splitKey_amended (al : Str) :
    (splitKey al).1 ++ (splitKey al).2 = al ∧
      (∀ b ∈ (splitKey al).1, isOpener b = false) ∧
      ((splitKey al).2 = [] ∨
        ∃ b r, (splitKey al).2 = b :: r ∧ isOpener b = true) := by
  induction al with
  | nil => simp [splitKey]
  | cons c rest ih =>
    by_cases hc : isOpener c = true
    · refine ⟨?_, ?_, ?_⟩
      · simp [splitKey, List.findIdx_cons, hc]
      · intro b hb
        simp [splitKey, List.findIdx_cons, hc] at hb
      · right
        exact ⟨c, rest, by simp [splitKey, List.findIdx_cons, hc], hc⟩
    · have hc' : isOpener c = false := by
        cases h : isOpener c
        · rfl
        · exact absurd h hc
      obtain ⟨ih1, ih2, ih3⟩ := ih
      refine ⟨?_, ?_, ?_⟩
      · simp only [splitKey, List.findIdx_cons, hc', cond_false,
          List.take_succ_cons, List.drop_succ_cons, List.cons_append,
          List.cons.injEq, true_and]
        exact ih1
      · intro b hb
        simp only [splitKey, List.findIdx_cons, hc', cond_false,
          List.take_succ_cons, List.mem_cons] at hb
        rcases hb with hb | hb
        · subst hb; exact hc'
        · exact ih2 b hb
      · simp only [splitKey, List.findIdx_cons, hc', cond_false,
          List.drop_succ_cons]
        exact ih3

/-- Witness for the amended C4 on the concrete token
`"XY9(5)[10]{AS}<1.0/2.0>~8~"`. -/
theorem splitKey_amended_wit :
    (splitKey tokC3).1 ++ (splitKey tokC3).2 = tokC3 ∧
      (∀ b ∈ (splitKey tokC3).1, isOpener b = false) ∧
      ((splitKey tokC3).2 = [] ∨
        ∃ b r, (splitKey tokC3).2 = b :: r ∧ isOpener b = true) :=
  splitKey_amended tokC3

/-! ## Claim C5: short primary records -/

/-- Claim C5 names the intended behaviour (a typed `MalformedRecordError`);
the code instead panics.  The line `"A:1:2"` has 3 colon-delimited fields,
so it is classified as a primary record (3 > 2); its first two numeric
fields parse, and then the direct index `parts[3]` is out of bounds, which
panics — `load` aborts the process rather than returning a typed error. -/
theorem load_short_record_panics : loadModel [[65, 58, 49, 58, 50]] = .panic := rfl

/-! ## Claim C7: empty and whitespace-only alias tokens -/

/-- Counterexample to C7 as stated: on the alias line `"AB, ;"` the second
raw token is `" "` — whitespace only, hence empty after trimming.  The
claim says such tokens are skipped and contribute no entry; in the code
the emptiness filter runs before the trim, so `" "` survives the filter,
is trimmed to `""`, and inserts an entry under the empty-string key. -/
theorem ws_token_cex :
    tableOf (loadModel [[65, 66, 44, 32, 59]]) [] = some defaultEntity := by decide

theorem dropWhile_eq_self_of {p : Nat → Bool} :
    ∀ s : Str, (∀ b ∈ s, p b = false) → s.dropWhile p = s
  | [], _ => rfl
  | b :: r, h => by simp [List.dropWhile_cons, h b (by simp)]

theorem dropWhile_eq_nil_of {p : Nat → Bool} :
    ∀ s : Str, (∀ b ∈ s, p b = true) → s.dropWhile p = []
  | [], _ => rfl
  | b :: r, h => by
    have hr := dropWhile_eq_nil_of r (fun x hx => h x (by simp [hx]))
    simp [List.dropWhile_cons, h b (by simp), hr]

theorem splitByte_single (d : Nat) :
    ∀ s : Str, (∀ b ∈ s, (b == d) = false) → splitByte d s = [s]
  | [], _ => rfl
  | b :: r, h => by
    have hb := h b (by simp)
    have hr := splitByte_single d r (fun x hx => h x (by simp [hx]))
    simp [splitByte, hb, hr]

/-- Claim C7, amended: alias tokens that are empty as raw strings (for
example from consecutive or trailing separators) are skipped and
contribute no entry; but a token consisting only of whitespace passes the
(pre-trim) emptiness filter, is trimmed to the empty string, and inserts
an entry for the current base entity under the empty-string key.  Part 1:
the line `",,;"`, whose raw tokens are all empty, changes nothing.
Part 2: a line that is one whitespace-only token inserts under `""`. -/
theorem alias_empty_vs_ws_tokens :
    (∀ (t : Table) (base : Entity),
        processLine (t, base) [44, 44, 59] = .ok (t, base)) ∧
      (∀ (t : Table) (base : Entity) (tok : Str), tok ≠ [] →
        (∀ b ∈ tok, isWs b = true) →
        processLine (t, base) tok
          = .ok (insertTable t [] { base with is_exact := false }, base)) := by
  constructor
  · intro t base
    rfl
  · intro t base tok hne hws
    have hnot : ∀ d : Nat, d = 58 ∨ d = 44 ∨ d = 59 → ∀ b ∈ tok, (b == d) = false := by
      intro d hd b hb
      have := hws b hb
      simp only [isWs, Bool.or_eq_true, beq_iff_eq] at this
      simp only [beq_eq_false_iff_ne, ne_eq]
      omega
    have h58 := splitByte_single 58 tok (hnot 58 (by omega))
    have h44 := splitByte_single 44 tok (hnot 44 (by omega))
    have htrim : trimWs tok = [] := by
      have h1 : tok.dropWhile isWs = [] := dropWhile_eq_nil_of tok hws
      simp [trimWs, h1]
    have htrimEnd : trimEndMatches 59 tok = tok := by
      have h1 : tok.reverse.dropWhile (fun c => c == 59) = tok.reverse :=
        dropWhile_eq_self_of tok.reverse
          (fun b hb => hnot 59 (by omega) b (List.mem_reverse.mp hb))
      simp [trimEndMatches, h1]
    have hempty : tok.isEmpty = false := by
      cases tok
      · exact absurd rfl hne
      · rfl
    have htoks : aliasTokens tok = [[]] := by
      simp [aliasTokens, htrimEnd, h44, hempty, htrim]
    have happ : applyAlias base [] = .ok ([], { base with is_exact := false }) := rfl
    simp only [processLine, h58, List.map_cons, List.map_nil, htrim,
      List.length_cons, List.length_nil, Nat.lt_irrefl, if_false]
    have hlt : ¬ (2 < 1) := by omega
    rw [if_neg hlt, htoks]
    simp only [processTokens, happ, Outcome.bind_ok]
    rfl

/-- Witness for the amended C7: the single-space token `" "` over the empty
table and default base entity inserts the base entity under `""`. -/
theorem alias_empty_vs_ws_tokens_wit :
    processLine (emptyTable, defaultEntity) [32]
      = .ok (insertTable emptyTable [] { defaultEntity with is_exact := false },
             defaultEntity) :=
  alias_empty_vs_ws_tokens.2 emptyTable defaultEntity [32]
    (by decide) (by decide)

/-! ## Capture-absence transfer lemmas

A capture that matches nowhere in a whole alias token matches nowhere in
any suffix of it, in particular in its overrides substring. -/

theorem scanFirstG_cons_none {α : Type} (m : Str → Option α) (b : Nat) (rest : Str)
    (h : scanFirstG m (b :: rest) = none) : scanFirstG m rest = none := by
  cases hm : m (b :: rest) with
  | some c =>
    simp only [scanFirstG, hm] at h
    exact Option.noConfusion h
  | none => simpa only [scanFirstG, hm] using h

theorem scanFirstG_drop_none {α : Type} (m : Str → Option α) :
    ∀ (s : Str) (k : Nat), scanFirstG m s = none → scanFirstG m (s.drop k) = none
  | _, 0, h => by simpa using h
  | [], _ + 1, h => by simpa using h
  | b :: r, k + 1, h => by
    simp only [List.drop_succ_cons]
    exact scanFirstG_drop_none m r k (scanFirstG_cons_none m b r h)

theorem scanFirstG_dropWhile_none {α : Type} (m : Str → Option α) (p : Nat → Bool) :
    ∀ s : Str, scanFirstG m s = none → scanFirstG m (s.dropWhile p) = none
  | [], h => by simpa using h
  | b :: r, h => by
    cases hp : p b with
    | true =>
      simp only [List.dropWhile_cons, hp, if_true]
      exact scanFirstG_dropWhile_none m p r (scanFirstG_cons_none m b r h)
    | false => simpa only [List.dropWhile_cons, hp, if_false] using h

/-- No match in the whole token implies no match in its overrides part. -/
theorem scanFirstG_ovr_none {α : Type} (m : Str → Option α) (al : Str)
    (h : scanFirstG m al = none) :
    scanFirstG m ((splitKey (al.dropWhile (fun b => b == 61))).2) = none := by
  have h1 := scanFirstG_dropWhile_none m (fun b => b == 61) al h
  simpa [splitKey] using
    scanFirstG_drop_none m (al.dropWhile (fun b => b == 61))
      ((al.dropWhile (fun b => b == 61)).findIdx isOpener) h1

/-! ## Override-step lemmas -/

theorem applyCq_none (ovr : Str) (e : Entity) (h : cqCapture ovr = none) :
    applyCq ovr e = .ok e := by
  simp [applyCq, h]

theorem applyItu_none (ovr : Str) (e : Entity) (h : ituCapture ovr = none) :
    applyItu ovr e = .ok e := by
  simp [applyItu, h]

theorem applyLatlon_none (ovr : Str) (e : Entity) (h : latlonCapture ovr = none) :
    applyLatlon ovr e = .ok e := by
  simp [applyLatlon, h]

theorem applyContinent_none (ovr : Str) (e : Entity) (h : braceCapture ovr = none) :
    applyContinent ovr e = .ok e := by
  simp [applyContinent, h]

theorem applyTimezone_none (ovr : Str) (e : Entity) (h : tildeCapture ovr = none) :
    applyTimezone ovr e = .ok e := by
  simp [applyTimezone, h]

/-- `applyCq` can only change the `cq` field. -/
theorem applyCq_untouched (ovr : Str) (e e' : Entity) (h : applyCq ovr e = .ok e') :
    e'.name = e.name ∧ e'.itu = e.itu ∧ e'.continent = e.continent ∧
      e'.lat = e.lat ∧ e'.lon = e.lon ∧ e'.timezone = e.timezone ∧
      e'.prefixStr = e.prefixStr ∧ e'.waedc = e.waedc ∧ e'.is_exact = e.is_exact := by
  cases hc : cqCapture ovr with
  | none =>
    simp only [applyCq, hc, Outcome.ok.injEq] at h
    subst h
    simp
  | some c =>
    simp only [applyCq, hc] at h
    cases hp : parseU32 c with
    | none => simp [hp, ofIntParse, Outcome.map] at h
    | some n =>
      simp only [hp, ofIntParse, Outcome.map, Outcome.ok.injEq] at h
      subst h
      simp

/-- `applyItu` can only change the `itu` field. -/
theorem applyItu_untouched (ovr : Str) (e e' : Entity) (h : applyItu ovr e = .ok e') :
    e'.name = e.name ∧ e'.cq = e.cq ∧ e'.continent = e.continent ∧
      e'.lat = e.lat ∧ e'.lon = e.lon ∧ e'.timezone = e.timezone ∧
      e'.prefixStr = e.prefixStr ∧ e'.waedc = e.waedc ∧ e'.is_exact = e.is_exact := by
  cases hc : ituCapture ovr with
  | none =>
    simp only [applyItu, hc, Outcome.ok.injEq] at h
    subst h
    simp
  | some c =>
    simp only [applyItu, hc] at h
    cases hp : parseU32 c with
    | none => simp [hp, ofIntParse, Outcome.map] at h
    | some n =>
      simp only [hp, ofIntParse, Outcome.map, Outcome.ok.injEq] at h
      subst h
      simp

/-- `applyLatlon` can only change the `lat` and `lon` fields. -/
theorem applyLatlon_untouched (ovr : Str) (e e' : Entity) (h : applyLatlon ovr e = .ok e') :
    e'.name = e.name ∧ e'.cq = e.cq ∧ e'.itu = e.itu ∧
      e'.continent = e.continent ∧ e'.timezone = e.timezone ∧
      e'.prefixStr = e.prefixStr ∧ e'.waedc = e.waedc ∧ e'.is_exact = e.is_exact := by
  cases hc : latlonCapture ovr with
  | none =>
    simp only [applyLatlon, hc, Outcome.ok.injEq] at h
    subst h
    simp
  | some c =>
    obtain ⟨c1, c2⟩ := c
    simp only [applyLatlon, hc] at h
    cases hp : parseF32 c1 with
    | none => simp [hp, ofFloatParse, Outcome.map] at h
    | some la =>
      cases hq : parseF32 c2 with
      | none => simp [hp, hq, ofFloatParse, Outcome.map] at h
      | some lo =>
        simp only [hp, hq, ofFloatParse, Outcome.bind_ok, Outcome.map,
          Outcome.ok.injEq] at h
        subst h
        simp

/-- `applyContinent` can only change the `continent` field. -/
theorem applyContinent_untouched (ovr : Str) (e e' : Entity)
    (h : applyContinent ovr e = .ok e') :
    e'.name = e.name ∧ e'.cq = e.cq ∧ e'.itu = e.itu ∧
      e'.lat = e.lat ∧ e'.lon = e.lon ∧ e'.timezone = e.timezone ∧
      e'.prefixStr = e.prefixStr ∧ e'.waedc = e.waedc ∧ e'.is_exact = e.is_exact := by
  cases hc : braceCapture ovr with
  | none =>
    simp only [applyContinent, hc, Outcome.ok.injEq] at h
    subst h
    simp
  | some c =>
    simp only [applyContinent, hc, Outcome.ok.injEq] at h
    subst h
    simp

/-- `applyTimezone` can only change the `timezone` field. -/
theorem applyTimezone_untouched (ovr : Str) (e e' : Entity)
    (h : applyTimezone ovr e = .ok e') :
    e'.name = e.name ∧ e'.cq = e.cq ∧ e'.itu = e.itu ∧
      e'.continent = e.continent ∧ e'.lat = e.lat ∧ e'.lon = e.lon ∧
      e'.prefixStr = e.prefixStr ∧ e'.waedc = e.waedc ∧ e'.is_exact = e.is_exact := by
  cases hc : tildeCapture ovr with
  | none =>
    simp only [applyTimezone, hc, Outcome.ok.injEq] at h
    subst h
    simp
  | some c =>
    simp only [applyTimezone, hc] at h
    cases hp : parseI32 c with
    | none => simp [hp, ofIntParse] at h
    | some n =>
      simp only [hp, ofIntParse, Outcome.bind_ok] at h
      cases hm : i32Mul n 3600 with
      | none => simp [hm] at h
      | some secs =>
        cases he : eastOpt secs with
        | none => simp [hm, he] at h
        | some secs' =>
          simp only [hm, he, Outcome.ok.injEq] at h
          subst h
          simp

@[simp] theorem Outcome.map_ok {α β : Type} (f : α → β) (a : α) :
    Outcome.map f (.ok a) = .ok (f a) := rfl

@[simp] theorem Outcome.map_err {α β : Type} (f : α → β) (e : LoadError) :
    Outcome.map f (.err e : Outcome α) = .err e := rfl

@[simp] theorem Outcome.map_panic {α β : Type} (f : α → β) :
    Outcome.map f (.panic : Outcome α) = .panic := rfl

/-- Inversion of a successful `applyAlias`: the five override steps all
succeeded in sequence on the overrides substring, and the returned key is
the pre-opener part of the token. -/
theorem applyAlias_ok_inv (base : Entity) (al k : Str) (e : Entity)
    (h : applyAlias base al = .ok (k, e)) :
    k = (splitKey (al.dropWhile (fun b => b == 61))).1 ∧
      ∃ e1 e2 e3 e4,
        applyCq ((splitKey (al.dropWhile (fun b => b == 61))).2)
            { base with is_exact := startsWithByte 61 al } = .ok e1 ∧
          applyItu ((splitKey (al.dropWhile (fun b => b == 61))).2) e1 = .ok e2 ∧
          applyLatlon ((splitKey (al.dropWhile (fun b => b == 61))).2) e2 = .ok e3 ∧
          applyContinent ((splitKey (al.dropWhile (fun b => b == 61))).2) e3 = .ok e4 ∧
          applyTimezone ((splitKey (al.dropWhile (fun b => b == 61))).2) e4 = .ok e := by
  simp only [applyAlias] at h
  cases h1 : applyCq ((splitKey (al.dropWhile (fun b => b == 61))).2)
      { base with is_exact := startsWithByte 61 al } with
  | panic => rw [h1] at h; simp at h
  | err e1 => rw [h1] at h; simp at h
  | ok e1 =>
    rw [h1, Outcome.bind_ok] at h
    cases h2 : applyItu ((splitKey (al.dropWhile (fun b => b == 61))).2) e1 with
    | panic => rw [h2] at h; simp at h
    | err e2 => rw [h2] at h; simp at h
    | ok e2 =>
      rw [h2, Outcome.bind_ok] at h
      cases h3 : applyLatlon ((splitKey (al.dropWhile (fun b => b == 61))).2) e2 with
      | panic => rw [h3] at h; simp at h
      | err e3 => rw [h3] at h; simp at h
      | ok e3 =>
        rw [h3, Outcome.bind_ok] at h
        cases h4 : applyContinent ((splitKey (al.dropWhile (fun b => b == 61))).2) e3 with
        | panic => rw [h4] at h; simp at h
        | err e4 => rw [h4] at h; simp at h
        | ok e4 =>
          rw [h4, Outcome.bind_ok] at h
          cases h5 : applyTimezone ((splitKey (al.dropWhile (fun b => b == 61))).2) e4 with
          | panic => rw [h5] at h; simp at h
          | err e5 => rw [h5] at h; simp at h
          | ok e5 =>
            rw [h5, Outcome.map_ok] at h
            simp only [Outcome.ok.injEq, Prod.mk.injEq] at h
            obtain ⟨hk, he⟩ := h
            refine ⟨hk.symm, e1, e2, e3, e4, rfl, h2, h3, h4, ?_⟩
            rw [h5, he]

/-- When the four non-timezone captures are absent from the overrides
substring, `applyAlias` is the timezone step alone. -/
theorem applyAlias_reduce_tz (base : Entity) (al : Str)
    (hcq : cqCapture ((splitKey (al.dropWhile (fun b => b == 61))).2) = none)
    (hitu : ituCapture ((splitKey (al.dropWhile (fun b => b == 61))).2) = none)
    (hll : latlonCapture ((splitKey (al.dropWhile (fun b => b == 61))).2) = none)
    (hbr : braceCapture ((splitKey (al.dropWhile (fun b => b == 61))).2) = none) :
    applyAlias base al
      = (applyTimezone ((splitKey (al.dropWhile (fun b => b == 61))).2)
            { base with is_exact := startsWithByte 61 al }).map
          (fun e5 => ((splitKey (al.dropWhile (fun b => b == 61))).1, e5)) := by
  simp only [applyAlias]
  rw [applyCq_none _ _ hcq, Outcome.bind_ok, applyItu_none _ _ hitu,
    Outcome.bind_ok, applyLatlon_none _ _ hll, Outcome.bind_ok,
    applyContinent_none _ _ hbr, Outcome.bind_ok]

/-! ## Claim C3: override application and inheritance -/

/-- Claim C3.  Part 1: applying the alias token `"XY9(5)[10]{AS}<1.0/2.0>~8~"`
over any base entity inserts under key `"XY9"` an entity with CQ zone 5,
ITU zone 10, continent `"AS"`, latitude 1, longitude 2 and UTC offset
28800 seconds, regardless of the base entity's original values.  Part 2:
for every alias token, each of the five override fields whose pattern does
not match anywhere in the token keeps the base entity's value. -/
theorem alias_override_application :
    (∀ (t : Table) (base : Entity),
        processTokens base t [tokC3]
          = .ok (insertTable t [88, 89, 57]
              { base with
                is_exact := false, cq := 5, itu := 10,
                continent := [65, 83], lat := 1, lon := 2, timezone := 28800 })) ∧
      (∀ (base : Entity) (al k : Str) (e : Entity),
        applyAlias base al = .ok (k, e) →
        (cqCapture al = none → e.cq = base.cq) ∧
          (ituCapture al = none → e.itu = base.itu) ∧
          (latlonCapture al = none → e.lat = base.lat ∧ e.lon = base.lon) ∧
          (braceCapture al = none → e.continent = base.continent) ∧
          (tildeCapture al = none → e.timezone = base.timezone)) := by
  constructor
  · exact fun _ _ => rfl
  · intro base al k e h
    obtain ⟨hk, e1, e2, e3, e4, h1, h2, h3, h4, h5⟩ := applyAlias_ok_inv base al k e h
    obtain ⟨u1n, u1itu, u1cont, u1lat, u1lon, u1tz, -, -, -⟩ :=
      applyCq_untouched _ _ _ h1
    obtain ⟨u2n, u2cq, u2cont, u2lat, u2lon, u2tz, -, -, -⟩ :=
      applyItu_untouched _ _ _ h2
    obtain ⟨u3n, u3cq, u3itu, u3cont, u3tz, -, -, -⟩ :=
      applyLatlon_untouched _ _ _ h3
    obtain ⟨u4n, u4cq, u4itu, u4lat, u4lon, u4tz, -, -, -⟩ :=
      applyContinent_untouched _ _ _ h4
    obtain ⟨u5n, u5cq, u5itu, u5cont, u5lat, u5lon, -, -, -⟩ :=
      applyTimezone_untouched _ _ _ h5
    refine ⟨?_, ?_, ?_, ?_, ?_⟩
    · intro hc
      have hovr := scanFirstG_ovr_none parenMatchAt al hc
      have h1' := applyCq_none _ { base with is_exact := startsWithByte 61 al } hovr
      rw [h1'] at h1
      injection h1 with h1e
      calc e.cq = e4.cq := u5cq
        _ = e3.cq := u4cq
        _ = e2.cq := u3cq
        _ = e1.cq := u2cq
        _ = base.cq := by rw [← h1e]
    · intro hc
      have hovr := scanFirstG_ovr_none bracketMatchAt al hc
      have h2' := applyItu_none _ e1 hovr
      rw [h2'] at h2
      injection h2 with h2e
      calc e.itu = e4.itu := u5itu
        _ = e3.itu := u4itu
        _ = e2.itu := u3itu
        _ = e1.itu := by rw [← h2e]
        _ = base.itu := u1itu
    · intro hc
      have hovr := scanFirstG_ovr_none angleMatchAt al hc
      have h3' := applyLatlon_none _ e2 hovr
      rw [h3'] at h3
      injection h3 with h3e
      constructor
      · calc e.lat = e4.lat := u5lat
          _ = e3.lat := u4lat
          _ = e2.lat := by rw [← h3e]
          _ = e1.lat := u2lat
          _ = base.lat := u1lat
      · calc e.lon = e4.lon := u5lon
          _ = e3.lon := u4lon
          _ = e2.lon := by rw [← h3e]
          _ = e1.lon := u2lon
          _ = base.lon := u1lon
    · intro hc
      have hovr := scanFirstG_ovr_none braceMatchAt al hc
      have h4' := applyContinent_none _ e3 hovr
      rw [h4'] at h4
      injection h4 with h4e
      calc e.continent = e4.continent := u5cont
        _ = e3.continent := by rw [← h4e]
        _ = e2.continent := u3cont
        _ = e1.continent := u2cont
        _ = base.continent := u1cont
    · intro hc
      have hovr := scanFirstG_ovr_none tildeMatchAt al hc
      have h5' := applyTimezone_none _ e4 hovr
      rw [h5'] at h5
      injection h5 with h5e
      calc e.timezone = e4.timezone := by rw [← h5e]
        _ = e3.timezone := u4tz
        _ = e2.timezone := u3tz
        _ = e1.timezone := u2tz
        _ = base.timezone := u1tz

/-- Witness for C3 at a concrete base entity: part 1 applied over `eBaseW`
on the empty table, and part 2 applied to the override-free token `"AB"`,
checking that `cq` and `timezone` are inherited from the base. -/
theorem alias_override_application_wit :
    processTokens eBaseW emptyTable [tokC3]
        = .ok (insertTable emptyTable [88, 89, 57]
            { eBaseW with
              is_exact := false, cq := 5, itu := 10,
              continent := [65, 83], lat := 1, lon := 2, timezone := 28800 }) ∧
      applyAlias eBaseW [65, 66] = .ok ([65, 66], { eBaseW with is_exact := false }) ∧
      ({ eBaseW with is_exact := false } : Entity).cq = eBaseW.cq ∧
      ({ eBaseW with is_exact := false } : Entity).timezone = eBaseW.timezone :=
  ⟨alias_override_application.1 emptyTable eBaseW, by decide,
    (alias_override_application.2 eBaseW [65, 66] [65, 66]
        { eBaseW with is_exact := false } (by decide)).1 (by decide),
    (alias_override_application.2 eBaseW [65, 66] [65, 66]
        { eBaseW with is_exact := false } (by decide)).2.2.2.2 (by decide)⟩

/-! ## Claim C8: the timezone override -/

/-- Counterexample to C8 as stated: the alias token `"Z~596524~"` carries a
`~n~` override whose offset is far out of the representable fixed-offset
range, so per the claim load should abort with an `InvalidTimezoneError`;
instead the multiplication `596524 * 3600` overflows `i32`, which is a
panic, not the typed error. -/
theorem tz_overflow_cex :
    parseI32 [53, 57, 54, 53, 50, 52] = some 596524 ∧
      applyAlias defaultEntity [90, 126, 53, 57, 54, 53, 50, 52, 126] = .panic ∧
      applyAlias defaultEntity [90, 126, 53, 57, 54, 53, 50, 52, 126]
        ≠ .err .invalidTimezone := by decide

/-- Claim C8, amended: for an ASCII alias token whose overrides substring
carries a `~n~` override (and none of the other four patterns), the
resulting entity's UTC offset is `n * 3600` seconds when `|n| ≤ 23` (the
offset then fits the fixed-offset range); when `24 ≤ |n|` and `n * 3600`
still fits in `i32` (`|n| ≤ 596523`), load aborts with the
`InvalidTimezoneError`; but when `|n| ≥ 596524` the product `n * 3600`
overflows `i32` and load panics instead of returning the typed error.
The token is restricted to ASCII because the capture-absence hypotheses
are stated over the embedded ASCII-digit scanners: only on ASCII tokens
do they coincide with the crate's Unicode `\d` classes, whereas e.g. a
token containing `(٣)` (a non-ASCII `\p{Nd}` digit) is captured by the
program's cq regex and aborts the load with a `ParseIntError` before the
timezone step. -/
theorem tz_override_amended (base : Entity) (al c : Str) (n : Int)
    (_ha : allAscii al = true)
    (hcq : cqCapture al = none) (hitu : ituCapture al = none)
    (hll : latlonCapture al = none) (hbr : braceCapture al = none)
    (htz : tildeCapture ((splitKey (al.dropWhile (fun b => b == 61))).2) = some c)
    (hn : parseI32 c = some n) :
    ((-24 < n ∧ n < 24) →
        applyAlias base al
          = .ok ((splitKey (al.dropWhile (fun b => b == 61))).1,
              { base with
                is_exact := startsWithByte 61 al, timezone := n * 3600 })) ∧
      ((n ≤ -24 ∨ 24 ≤ n) → -596524 < n → n < 596524 →
        applyAlias base al = .err .invalidTimezone) ∧
      ((n ≤ -596524 ∨ 596524 ≤ n) → applyAlias base al = .panic) := by
  have hred := applyAlias_reduce_tz base al
    (scanFirstG_ovr_none parenMatchAt al hcq)
    (scanFirstG_ovr_none bracketMatchAt al hitu)
    (scanFirstG_ovr_none angleMatchAt al hll)
    (scanFirstG_ovr_none braceMatchAt al hbr)
  refine ⟨?_, ?_, ?_⟩
  · intro hb
    rw [hred]
    have hm : i32Mul n 3600 = some (n * 3600) := by
      unfold i32Mul
      rw [if_pos]
      constructor <;> omega
    have he : eastOpt (n * 3600) = some (n * 3600) := by
      unfold eastOpt
      rw [if_pos]
      constructor <;> omega
    simp only [applyTimezone, htz, hn, ofIntParse, Outcome.bind_ok, hm, he,
      Outcome.map_ok]
  · intro hb h1 h2
    rw [hred]
    have hm : i32Mul n 3600 = some (n * 3600) := by
      unfold i32Mul
      rw [if_pos]
      constructor <;> omega
    have he : eastOpt (n * 3600) = none := by
      unfold eastOpt
      rw [if_neg]
      omega
    simp only [applyTimezone, htz, hn, ofIntParse, Outcome.bind_ok, hm, he,
      Outcome.map_err]
  · intro hb
    rw [hred]
    have hm : i32Mul n 3600 = none := by
      unfold i32Mul
      rw [if_neg]
      omega
    simp only [applyTimezone, htz, hn, ofIntParse, Outcome.bind_ok, hm,
      Outcome.map_panic]

/-- Witness for the amended C8: the token `"Z~8~"` stores offset
`8 * 3600 = 28800` seconds under key `"Z"`. -/
theorem tz_override_amended_wit :
    applyAlias defaultEntity [90, 126, 56, 126]
      = .ok ((splitKey ([90, 126, 56, 126].dropWhile (fun b => b == 61))).1,
          { defaultEntity with
            is_exact := startsWithByte 61 [90, 126, 56, 126],
            timezone := 8 * 3600 }) :=
  (tz_override_amended defaultEntity [90, 126, 56, 126] [56] 8 (by decide)
      (by decide) (by decide) (by decide) (by decide) (by decide) (by decide)).1
    (by decide)

/-! ## Claim C9: primary record entities -/

theorem Outcome.bind_eq_ok {α β : Type} {x : Outcome α} {f : α → Outcome β} {b : β}
    (h : x.bind f = .ok b) : ∃ a, x = .ok a ∧ f a = .ok b := by
  cases x with
  | panic => simp at h
  | err e => simp at h
  | ok a => exact ⟨a, rfl, h⟩

theorem idxOf_ok {l : List Str} {i : Nat} {s : Str} (h : idxOf l i = .ok s) :
    l.get? i = some s := by
  unfold idxOf at h
  cases hg : l.get? i with
  | none => rw [hg] at h; exact Outcome.noConfusion h
  | some s' =>
    rw [hg] at h
    injection h with h
    rw [h]

/-- Claim C9: for every line classified as a primary record whose
processing succeeds, the entity inserted under its primary prefix (which
also becomes the new `last_entity`) has UTC offset zero regardless of the
content of any field, has `isExactMatch = false`, its `waedc` flag is set
exactly when field 7 starts with the `*` marker, and the stored primary
prefix is field 7 with all leading `*` markers stripped; the entity is
present in the table under that prefix. -/
theorem primary_record_fields (t : Table) (base : Entity) (line : Str)
    (t' : Table) (e' : Entity)
    (h : processLine (t, base) line = .ok (t', e'))
    (hp : 2 < ((splitByte 58 line).map trimWs).length) :
    e'.timezone = 0 ∧ e'.is_exact = false ∧
      (∀ g7, ((splitByte 58 line).map trimWs).get? 7 = some g7 →
        e'.waedc = startsWithByte 42 g7 ∧
          e'.prefixStr = g7.dropWhile (fun b => b == 42)) ∧
      t' e'.prefixStr = some e' := by
  simp only [processLine] at h
  rw [if_pos hp] at h
  simp only [processPrimary] at h
  obtain ⟨f0, h0, h⟩ := Outcome.bind_eq_ok h
  obtain ⟨f1, h1, h⟩ := Outcome.bind_eq_ok h
  obtain ⟨cq, hcq, h⟩ := Outcome.bind_eq_ok h
  obtain ⟨f2, h2, h⟩ := Outcome.bind_eq_ok h
  obtain ⟨itu, hitu, h⟩ := Outcome.bind_eq_ok h
  obtain ⟨f3, h3, h⟩ := Outcome.bind_eq_ok h
  obtain ⟨f4, h4, h⟩ := Outcome.bind_eq_ok h
  obtain ⟨la, hla, h⟩ := Outcome.bind_eq_ok h
  obtain ⟨f5, h5, h⟩ := Outcome.bind_eq_ok h
  obtain ⟨lo, hlo, h⟩ := Outcome.bind_eq_ok h
  obtain ⟨f7, h7, h⟩ := Outcome.bind_eq_ok h
  simp only [Outcome.ok.injEq, Prod.mk.injEq] at h
  obtain ⟨ht', he'⟩ := h
  subst he'
  refine ⟨rfl, rfl, ?_, ?_⟩
  · intro g7 hg
    rw [idxOf_ok h7] at hg
    injection hg with hg
    subst hg
    exact ⟨rfl, rfl⟩
  · rw [← ht']
    simp [insertTable]

/-- Witness for C9: the line `"G:14:28:EU:3:7:x:*DL"` produces the entity
`eG` with zero UTC offset, `isExactMatch` false, `waedc` true (from the
leading `*`), primary prefix `"DL"`, inserted under `"DL"`, even though
field 6 (`"x"`) is present where a timezone-like field could sit. -/
theorem primary_record_fields_wit :
    eG.timezone = 0 ∧ eG.is_exact = false ∧
      (∀ g7, ((splitByte 58 lineG).map trimWs).get? 7 = some g7 →
        eG.waedc = startsWithByte 42 g7 ∧
          eG.prefixStr = g7.dropWhile (fun b => b == 42)) ∧
      (insertTable emptyTable [68, 76] eG) eG.prefixStr = some eG :=
  primary_record_fields emptyTable defaultEntity lineG
    (insertTable emptyTable [68, 76] eG) eG rfl (by decide)
